import Mathlib

/-!
# Verification of libcbmimage core routines

A shallow embedding of the address-translation, FAT, BAM, chain-following
and file-reading routines of the libcbmimage library, together with proofs
about the claims of its specification.

Conventions of the embedding:
* machine integers (`uint8_t`, `uint16_t`, `int`) become `Nat` or `Int`;
  where overflow matters, an explicit `% 65536` (or byte mask) is written;
* fallible C functions that return `0` on success and non-zero on error and
  produce a value through an out-parameter become `Option`-valued functions;
* functions whose `int` result carries information (rather than only a
  success flag) keep an `Int` result;
* the model covers the *global* frame of an image: no sub-partition is
  active (`subdir_relative_addressing` off, `subdir_data_offset` zero),
  matching a freshly opened image;
* diagnostic output (`cbmimage_i_fmt_print`) is modelled, where a claim
  needs it, as a list of `ValDiag` values accumulated alongside the result.
-/

/-- A block address as in `cbmimage.h`: the track/sector pair together with
the LBA (`struct cbmimage_blockaddress_s`).  All three fields are machine
integers in C (`uint8_t`, `uint8_t`, `uint16_t`); they are modelled as `Nat`. -/
structure cbmimage_blockaddress where
  track : Nat
  sector : Nat
  lba : Nat
deriving DecidableEq, Repr

/-- `cbmimage_block_unused` from `blockaddress.c`: the all-zero address. -/
def cbmimage_block_unused : cbmimage_blockaddress := ⟨0, 0, 0⟩

/-- A file image with the *generic uniform* geometry (every track has
`maxsectors` sectors), the case handled by
`cbmimage_i_generic_ts_to_blockaddress` / `cbmimage_i_generic_lba_to_blockaddress`
(used by D81, D1M-family and DNP images).  `data lba offset` is the byte at
`offset` of the block at `lba` inside the image buffer; `bytes_in_block`
is `settings->bytes_in_block` (256 for all supported formats). -/
structure GenImage where
  maxtracks : Nat
  maxsectors : Nat
  bytes_in_block : Nat
  data : Nat → Nat → Nat

/-- `cbmimage_get_sectors_in_track` for an image without a per-format
`get_sectors_in_track` function: returns `settings->maxsectors`. -/
def cbmimage_get_sectors_in_track (img : GenImage) (_track : Nat) : Nat :=
  img.maxsectors

/-- `cbmimage_get_max_lba`: the LBA of the last block.  The last block is
created by `cbmimage_i_create_last_block` from
`(maxtracks, sectors_in_track(maxtracks) - 1)`; for the uniform geometry its
LBA is `maxtracks * maxsectors`. -/
def cbmimage_get_max_lba (img : GenImage) : Nat :=
  img.maxtracks * img.maxsectors

/-- `cbmimage_blockaddress_ts_exists` from `blockaddress.c`. -/
def cbmimage_blockaddress_ts_exists (img : GenImage) (track sector : Nat) : Bool :=
  0 < track && track ≤ img.maxtracks && sector < img.maxsectors &&
    sector < cbmimage_get_sectors_in_track img track

/-- `cbmimage_blockaddress_lba_exists` from `blockaddress.c`. -/
def cbmimage_blockaddress_lba_exists (img : GenImage) (lba : Nat) : Bool :=
  0 < lba && lba ≤ cbmimage_get_max_lba img

/-- `cbmimage_i_generic_ts_to_blockaddress`: computes the LBA
`(track - 1) * maxsectors + sector + 1`; fails (returns non-zero, modelled
as `none`) when the track/sector pair does not exist. -/
def cbmimage_i_generic_ts_to_blockaddress (img : GenImage) (track sector : Nat) :
    Option Nat :=
  if cbmimage_blockaddress_ts_exists img track sector then
    some ((track - 1) * img.maxsectors + sector + 1)
  else
    none

/-- `cbmimage_i_generic_lba_to_blockaddress`: computes track and sector from
the LBA; fails when `lba = 0` or the computed pair is out of range. -/
def cbmimage_i_generic_lba_to_blockaddress (img : GenImage) (lba : Nat) :
    Option (Nat × Nat) :=
  if lba = 0 then
    none
  else
    let track := (lba - 1) / img.maxsectors + 1
    let sector := (lba - 1) - (track - 1) * img.maxsectors
    if track > img.maxtracks ∨ sector ≥ img.maxsectors then
      none
    else
      some (track, sector)

/-- `cbmimage_blockaddress_init_from_ts_value` (generic path): builds the
full block address from track and sector. -/
def cbmimage_blockaddress_init_from_ts_value (img : GenImage) (track sector : Nat) :
    Option cbmimage_blockaddress :=
  match cbmimage_i_generic_ts_to_blockaddress img track sector with
  | some l => some ⟨track, sector, l⟩
  | none => none

/-- `cbmimage_blockaddress_init_from_lba_value` (generic path): builds the
full block address from the LBA. -/
def cbmimage_blockaddress_init_from_lba_value (img : GenImage) (lba : Nat) :
    Option cbmimage_blockaddress :=
  match cbmimage_i_generic_lba_to_blockaddress img lba with
  | some (t, s) => some ⟨t, s, lba⟩
  | none => none

/-- The macro `CBMIMAGE_BLOCK_SET_FROM_LBA`: stores the LBA into the block
and calls `cbmimage_blockaddress_init_from_lba`, *ignoring* its return value.
On failure the track/sector part is left (or cleared to) `0/0` while the LBA
stays as stored. -/
def CBMIMAGE_BLOCK_SET_FROM_LBA (img : GenImage) (lba : Nat) : cbmimage_blockaddress :=
  match cbmimage_i_generic_lba_to_blockaddress img lba with
  | some (t, s) => ⟨t, s, lba⟩
  | none => ⟨0, 0, lba⟩

/-- `cbmimage_blockaddress_add` from `blockaddress.c`: "rebase" addition of
two block addresses.  `blockresult.lba + block_adder.lba - 1` is computed in
`int` and truncated to `uint16_t` on assignment, hence the `% 65536`.
The function unconditionally returns 0. -/
def cbmimage_blockaddress_add (img : GenImage)
    (blockresult block_adder : cbmimage_blockaddress) :
    Int × cbmimage_blockaddress :=
  if block_adder.lba = 0 then
    (0, blockresult)
  else if blockresult.lba = 0 then
    (0, block_adder)
  else
    (0, CBMIMAGE_BLOCK_SET_FROM_LBA img ((blockresult.lba + block_adder.lba - 1) % 65536))

/-- `cbmimage_i_blockaddress_advance` from `blockaddress.c`, for the global
frame (no relative sub-partition active).  Returns the next block of the
image (or of the track if `do_not_advance_in_track`), or `none` when there
is no next block. -/
def cbmimage_i_blockaddress_advance (img : GenImage) (block : cbmimage_blockaddress)
    (do_not_advance_in_track : Bool) : Option cbmimage_blockaddress :=
  let sector_count := cbmimage_get_sectors_in_track img block.track
  if ¬ cbmimage_blockaddress_lba_exists img block.lba then
    none
  else if block.sector + 1 ≥ sector_count then
    if do_not_advance_in_track then
      none
    else if block.track + 1 > img.maxtracks then
      none
    else
      some ⟨block.track + 1, 0, block.lba + 1⟩
  else
    some ⟨block.track, block.sector + 1, block.lba + 1⟩

/-- `cbmimage_blockaddress_advance`. -/
def cbmimage_blockaddress_advance (img : GenImage) (block : cbmimage_blockaddress) :
    Option cbmimage_blockaddress :=
  cbmimage_i_blockaddress_advance img block false

/- ## The D40/D64/D71 per-track geometry (`d40_d64_d71.c`) -/

/-- Per-image settings of the D40/D64/D71 family: the maximum track and the
sectors-per-track lookup table. -/
structure D64Settings where
  maxtracks : Nat
  sectors_in_track : Nat → Nat

/-- `sectors_in_track_d64` from `d40_d64_d71.c` (43 entries; entry 0 unused). -/
def sectors_in_track_d64_table : List Nat :=
  [0,
   21, 21, 21, 21, 21,
   21, 21, 21, 21, 21,
   21, 21, 21, 21, 21,
   21, 21, 19, 19, 19,
   19, 19, 19, 19, 18,
   18, 18, 18, 18, 18,
   17, 17, 17, 17, 17,
   17, 17, 17, 17, 17,
   17, 17]

/-- The table `settings->d40_d64_d71.track_lba_start` as computed by
`cbmimage_i_d40_d64_d71_calculate_track_lba_start_table`: entry 0 stays 0
(never written), entry 1 is 1, and each further entry adds the sector count
of the previous track. -/
def track_lba_start (s : D64Settings) : Nat → Nat
  | 0 => 0
  | 1 => 1
  | t + 2 => track_lba_start s (t + 1) + s.sectors_in_track (t + 1)

/-- `cbmimage_i_d40_d64_d71_ts_to_blockaddress`: fails when the track is 0 or
beyond `maxtracks`; otherwise the LBA is `track_lba_start[track] + sector`
(the sector is *not* checked). -/
def cbmimage_i_d40_d64_d71_ts_to_blockaddress (s : D64Settings) (track sector : Nat) :
    Option Nat :=
  if track = 0 ∨ track > s.maxtracks then
    none
  else
    some (track_lba_start s track + sector)

/-- The scan loop of `cbmimage_i_d40_d64_d71_lba_to_blockaddress`:
`for (track = 1; track <= maxtracks; ++track) if (start[track] > lba) break;`.
`fuel` counts the remaining loop iterations (initially `maxtracks`, starting
at `t = 1`), so the function returns the C variable `track` after the loop. -/
def d64_scan_go (s : D64Settings) (lba : Nat) : Nat → Nat → Nat
  | t, 0 => t
  | t, fuel + 1 => if track_lba_start s t > lba then t else d64_scan_go s lba (t + 1) fuel

/-- `cbmimage_i_d40_d64_d71_lba_to_blockaddress`: linear scan over the
start table, then `--track`, `sector := lba - start[track]`, and the check
`sector > sectors_in_track[track]` (note: `>`; the source does not use `>=`). -/
def cbmimage_i_d40_d64_d71_lba_to_blockaddress (s : D64Settings) (lba : Nat) :
    Option (Nat × Nat) :=
  let track := d64_scan_go s lba 1 s.maxtracks - 1
  let sector := lba - track_lba_start s track
  if sector > s.sectors_in_track track then
    none
  else
    some (track, sector)

/-- The 35-track D64 image settings installed by
`cbmimage_i_d64_chdir_partition_init`. -/
def d64_image : D64Settings :=
  ⟨35, fun t => sectors_in_track_d64_table.getD t 0⟩

/-- `cbmimage_get_max_lba` of a 35-track D64: the last block is track 35,
sector 16, whose LBA is 683. -/
def d64_max_lba : Nat := track_lba_start d64_image 35 + (d64_image.sectors_in_track 35 - 1)

/- ## The reconstructed FAT (`fat.c`) -/

/-- `CBMIMAGE_FAT_LASTBLOCK` from `fat.c`. -/
def CBMIMAGE_FAT_LASTBLOCK : Nat := 0xFFFF

/-- `CBMIMAGE_FAT_UNUSED` from `fat.c`. -/
def CBMIMAGE_FAT_UNUSED : Nat := 0

/-- The FAT of `fat.c`: the array `entry[]` of target LBAs, indexed by the
LBA of the block. -/
structure cbmimage_fat where
  entry : Nat → Nat

/-- `cbmimage_i_fat_set`: store a raw target LBA for a block. -/
def cbmimage_i_fat_set (fat : cbmimage_fat) (block_lba target_lba : Nat) : cbmimage_fat :=
  ⟨fun l => if l = block_lba then target_lba else fat.entry l⟩

/-- `cbmimage_fat_set`: store a target block; an unused target (lba 0)
is stored as the `CBMIMAGE_FAT_LASTBLOCK` sentinel. -/
def cbmimage_fat_set (fat : cbmimage_fat) (block_lba : Nat)
    (target : cbmimage_blockaddress) : cbmimage_fat :=
  cbmimage_i_fat_set fat block_lba
    (if target.lba = 0 then CBMIMAGE_FAT_LASTBLOCK else target.lba)

/-- `cbmimage_i_fat_get_target_lba`: the raw stored entry. -/
def cbmimage_i_fat_get_target_lba (fat : cbmimage_fat) (block_lba : Nat) : Nat :=
  fat.entry block_lba

/-- `cbmimage_fat_get` from `fat.c`, translated faithfully: the source reads

    int lba = cbmimage_i_fat_get_target_lba(fat, block) != CBMIMAGE_FAT_UNUSED;

so `lba` is the *comparison result* (0 or 1), and in the `default` branch of
the `switch` the macro `CBMIMAGE_BLOCK_SET_FROM_LBA(fat->image, block, lba)`
writes the local variable `block`, not `target`; `target` keeps its
initializer `cbmimage_block_unused` in that branch. -/
def cbmimage_fat_get (fat : cbmimage_fat) (block_lba : Nat) : cbmimage_blockaddress :=
  let lba : Nat := if cbmimage_i_fat_get_target_lba fat block_lba ≠ CBMIMAGE_FAT_UNUSED
    then 1 else 0
  if lba = CBMIMAGE_FAT_UNUSED then
    cbmimage_block_unused
  else if lba = CBMIMAGE_FAT_LASTBLOCK then
    { cbmimage_block_unused with lba := CBMIMAGE_FAT_LASTBLOCK }
  else
    cbmimage_block_unused

/-- `cbmimage_fat_is_used`. -/
def cbmimage_fat_is_used (fat : cbmimage_fat) (block_lba : Nat) : Bool :=
  cbmimage_i_fat_get_target_lba fat block_lba ≠ CBMIMAGE_FAT_UNUSED

/- ## Loop detector (`loop.c`) and chain follower (`chain.c`) -/

/-- `data[0]` of the block at `lba`: the link track byte. -/
def linkTrack (img : GenImage) (lba : Nat) : Nat := img.data lba 0

/-- `data[1]` of the block at `lba`: the link sector byte. -/
def linkSector (img : GenImage) (lba : Nat) : Nat := img.data lba 1

/-- `cbmimage_loop_mark` from `loop.c`: the loop detector's bitmap is
modelled as a `Finset Nat` of marked LBAs.  Returns the C result
(-1 out of range / 1 already marked / 0 fresh) together with the updated
bitmap (no bit is touched in the out-of-range case). -/
def cbmimage_loop_mark (img : GenImage) (marked : Finset Nat) (lba : Nat) :
    Int × Finset Nat :=
  if lba = 0 ∨ lba > cbmimage_get_max_lba img then
    (-1, marked)
  else if lba ∈ marked then
    (1, insert lba marked)
  else
    (0, insert lba marked)

/-- `cbmimage_blockaccessor_get_next_block` from `blockaccessor.c`, reading
the link header of the block at `current`.  The result pair is the C return
value together with the block address written through `block_next`:
* link track 0: the current block is terminal; the result is the link
  sector, with 0 standing for 256;
* a valid link: result 0 and the next block's address;
* an out-of-range link: result -1. -/
def cbmimage_blockaccessor_get_next_block (img : GenImage) (current : Nat) :
    Int × Option cbmimage_blockaddress :=
  if linkTrack img current = 0 then
    ((if linkSector img current = 0 then 256 else (linkSector img current : Int)), none)
  else if linkTrack img current ≤ img.maxtracks then
    if linkSector img current < cbmimage_get_sectors_in_track img (linkTrack img current) then
      match cbmimage_blockaddress_init_from_ts_value img (linkTrack img current)
          (linkSector img current) with
      | some b => (0, some b)
      | none => (1, none)
    else
      (-1, none)
  else
    (-1, none)

/-- The chain state of `chain.c`: the block accessor's current block (as an
LBA), the loop detector's bitmap, and the `is_done` / `is_loop` flags. -/
structure cbmimage_chain where
  current : Nat
  marked : Finset Nat
  is_done : Bool
  is_loop : Bool
deriving DecidableEq

/-- `cbmimage_i_chain_readblock`: mark the block in the loop detector (a
non-zero mark result — already marked *or* out of range — sets both
`is_loop` and `is_done` and yields -1, without moving the accessor);
otherwise move the accessor to the block and re-read its link header. -/
def cbmimage_i_chain_readblock (img : GenImage) (c : cbmimage_chain) (block_lba : Nat) :
    cbmimage_chain × Int :=
  if (cbmimage_loop_mark img c.marked block_lba).fst ≠ 0 then
    ({ c with
        marked := (cbmimage_loop_mark img c.marked block_lba).snd
        is_loop := true
        is_done := true }, -1)
  else
    ({ c with
        marked := (cbmimage_loop_mark img c.marked block_lba).snd
        current := block_lba },
     (cbmimage_blockaccessor_get_next_block img block_lba).fst)

/-- `cbmimage_chain_start`: a fresh chain at `block_start`, immediately
reading the first block. -/
def cbmimage_chain_start (img : GenImage) (block_start : Nat) : cbmimage_chain × Int :=
  cbmimage_i_chain_readblock img ⟨block_start, ∅, false, false⟩ block_start

/-- `cbmimage_chain_advance`: follow the link of the current block; when the
current block is terminal (or its link is malformed), set `is_done` and
return the link result unchanged. -/
def cbmimage_chain_advance (img : GenImage) (c : cbmimage_chain) :
    cbmimage_chain × Int :=
  if (cbmimage_blockaccessor_get_next_block img c.current).fst = 0 then
    cbmimage_i_chain_readblock img c
      (match (cbmimage_blockaccessor_get_next_block img c.current).snd with
       | some b => b.lba
       | none => 0)
  else
    ({ c with is_done := true }, (cbmimage_blockaccessor_get_next_block img c.current).fst)

/-- `cbmimage_chain_last_result`: re-reads the current block's link header. -/
def cbmimage_chain_last_result (img : GenImage) (c : cbmimage_chain) : Int :=
  (cbmimage_blockaccessor_get_next_block img c.current).fst

/-- `cbmimage_chain_is_done`. -/
def cbmimage_chain_is_done (c : cbmimage_chain) : Bool := c.is_done

/-- The chain after `n` calls to `cbmimage_chain_advance` following
`cbmimage_chain_start`. -/
def cbmimage_chain_run (img : GenImage) (start : Nat) : Nat → cbmimage_chain
  | 0 => (cbmimage_chain_start img start).fst
  | n + 1 => (cbmimage_chain_advance img (cbmimage_chain_run img start n)).fst

/- ## Reading blocks (`readwriteblock.c`) and files (`file.c`) -/

/-- `cbmimage_read_block` from `readwriteblock.c` (global frame, buffer large
enough): copies the block and returns the raw link sector byte when the link
track is 0 — *without* the `0 means 256` convention of the chain follower —
0 when the block links onward, and -1 when the block address is out of range
(`cbmimage_i_get_address_of_block` yields NULL). -/
def cbmimage_read_block (img : GenImage) (block : cbmimage_blockaddress) : Int :=
  if 0 < block.lba ∧ block.lba ≤ cbmimage_get_max_lba img then
    if linkTrack img block.lba = 0 then
      (linkSector img block.lba : Int)
    else
      0
  else
    -1

/-- The file-reader state of `file.c`: the chain plus the read position
inside the current block. -/
structure cbmimage_file where
  chain : cbmimage_chain
  block_current_offset : Nat
  block_current_remain : Nat
deriving DecidableEq

/-- `cbmimage_file_open_by_dir_entry`, reduced to the start block of the
directory entry: start the chain and prime offset/remain from
`cbmimage_chain_last_result` (a result of 1, or an error, leaves both
fields at their zero initialization from `cbmimage_i_xalloc`). -/
def cbmimage_file_open_by_dir_entry (img : GenImage) (start_block : Nat) : cbmimage_file :=
  let chain := (cbmimage_chain_start img start_block).fst
  let ret := cbmimage_chain_last_result img chain
  if ret = 0 then
    ⟨chain, 2, 0x100 - 2⟩
  else if ret > 1 then
    ⟨chain, 2, ret.toNat - 2 + 1⟩
  else
    ⟨chain, 0, 0⟩

/-- The `while (write_remaining > 0 && !done)` loop of
`cbmimage_file_read_next_block`.  State: the chain, the offset/remain fields,
the bytes still wanted (`wr` = `write_remaining`) and the bytes delivered so
far (`acc` = `bytes_return`).  `fuel` bounds the number of iterations; every
iteration either lowers `write_remaining` or refills an empty block, so
`2 * buffer_size + 4` iterations always suffice and the `none` case is never
reached from `cbmimage_file_read_next_block`. -/
def cbmimage_i_file_read_loop (img : GenImage) (chain : cbmimage_chain)
    (offset remain wr acc : Nat) :
    Nat → Option (Nat × cbmimage_chain × Nat × Nat)
  | 0 => none
  | fuel + 1 =>
    if wr = 0 ∨ chain.is_done then
      some (acc, chain, offset, remain)
    else
      let c := min wr remain
      let offset' := offset + c
      let remain' := remain - c
      let wr' := wr - c
      let acc' := acc + c
      if 0 < wr' then
        let a := cbmimage_chain_advance img chain
        if a.snd = 0 then
          cbmimage_i_file_read_loop img a.fst 2 (0x100 - 2) wr' acc' fuel
        else if a.snd = 1 then
          cbmimage_i_file_read_loop img a.fst offset' remain' 0 acc' fuel
        else if 1 < a.snd then
          cbmimage_i_file_read_loop img a.fst 2 (a.snd.toNat - 2 + 1) wr' acc' fuel
        else
          cbmimage_i_file_read_loop img a.fst offset' remain' 0 acc' fuel
      else
        cbmimage_i_file_read_loop img chain offset' remain' wr' acc' fuel

/-- `cbmimage_file_read_next_block`: -1 when the chain is already done on
entry, otherwise the number of bytes copied (with the updated file state). -/
def cbmimage_file_read_next_block (img : GenImage) (f : cbmimage_file)
    (buffer_size : Nat) : Option (Int × cbmimage_file) :=
  if f.chain.is_done then
    some (-1, f)
  else
    match cbmimage_i_file_read_loop img f.chain f.block_current_offset
        f.block_current_remain buffer_size 0 (2 * buffer_size + 4) with
    | some (acc, chain', off, rem) => some ((acc : Int), ⟨chain', off, rem⟩)
    | none => none

/- ## BAM engine (`bam.c`) and the validator's FAT/BAM comparison (`validate.c`) -/

/-- The values of `enum cbmimage_BAM_state_e` from `cbmimage.h`. -/
def BAM_UNKNOWN : Int := 0

/-- `BAM_REALLY_FREE` from `cbmimage.h`. -/
def BAM_REALLY_FREE : Int := 1

/-- `BAM_FREE` from `cbmimage.h`. -/
def BAM_FREE : Int := 2

/-- `BAM_USED` from `cbmimage.h`. -/
def BAM_USED : Int := 3

/-- A diagnostic line emitted through `cbmimage_i_fmt_print`; only the
diagnostics relevant to the modelled checks are represented. -/
inductive ValDiag where
  | maskBitsInvalid (track : Nat)
  | counterExceedsSectors (track reported sectors : Nat)
  | counterMismatch (track reported counted : Nat)
  | blockUsedButBamFree (lba : Nat)
  | blockFreeButBamUsed (lba : Nat)
deriving DecidableEq, Repr

/-- An image as seen by `cbmimage_bam_check_consistency`: the geometry, and
the per-track bitmap bytes and counter byte as gathered by
`cbmimage_i_get_bam_of_track` / `cbmimage_i_get_bam_counter_of_track` from
the format's BAM selectors.  `bamPresent` is `bam_count != 0` (when it is
false, `cbmimage_i_get_bam_of_track` fails). -/
structure BamImage where
  maxtrack : Nat
  sectorsInTrack : Nat → Nat
  bamPresent : Bool
  mask : Nat → Nat → Nat
  counter : Nat → Nat

/-- The inner bit-counting loop of `cbmimage_i_countbits` for one byte. -/
def cbmimage_i_countbits_byte (b : Nat) : Nat :=
  (List.range 8).foldl (fun acc j => acc + (b >>> j) % 2) 0

/-- `cbmimage_i_countbits`: the number of 1-bits in the 32 mask bytes. -/
def cbmimage_i_countbits (mask : Nat → Nat) : Nat :=
  (List.range 32).foldl (fun acc i => acc + cbmimage_i_countbits_byte (mask i)) 0

/-- The `for (i = 0; i < BAM_MASK_COUNT; ++i)` loop of
`cbmimage_i_check_max_bam_of_track`, with `remaining` tracking
`remaining_sectors_on_track` (note that the source does *not* update
`remaining` in the partial-byte branch). -/
def cbmimage_i_check_max_go (mask : Nat → Nat) : Nat → Nat → Nat → Int
  | _i, _remaining, 0 => 0
  | i, remaining, fuel + 1 =>
    if remaining ≥ 8 then
      cbmimage_i_check_max_go mask (i + 1) (remaining - 8) fuel
    else if remaining = 0 then
      if mask i ≠ 0 then -1 else cbmimage_i_check_max_go mask (i + 1) remaining fuel
    else
      if mask i &&& ((0xFF <<< remaining) &&& 0xFF) ≠ 0 then -1
      else cbmimage_i_check_max_go mask (i + 1) remaining fuel

/-- `cbmimage_i_check_max_bam_of_track`: -1 when the track is out of range or
a bit is set for a non-existing sector, 0 otherwise. -/
def cbmimage_i_check_max_bam_of_track (img : BamImage) (track : Nat) : Int :=
  if track > img.maxtrack then -1
  else cbmimage_i_check_max_go (img.mask track) 0 (img.sectorsInTrack track) 32

/-- The `for (track = 1; track <= maxtrack; ++track)` loop of
`cbmimage_bam_check_consistency` (`fuel` counts the remaining iterations).
The body calls `cbmimage_i_check_max_bam_of_track` *discarding its result*,
and the two counter checks only print; no violation is ever stored into the
return value, which stays 0 unless `cbmimage_i_get_bam_of_track` itself
fails (modelled by `bamPresent = false`). -/
def cbmimage_bam_check_consistency_go (img : BamImage) : Nat → Nat → Int × List ValDiag
  | _t, 0 => (0, [])
  | t, fuel + 1 =>
    if img.bamPresent = false then
      (-1, [])
    else
      let bam_counter := img.counter t
      let sectors := img.sectorsInTrack t
      let d1 := if cbmimage_i_check_max_bam_of_track img t ≠ 0 then
        [ValDiag.maskBitsInvalid t] else []
      let count := cbmimage_i_countbits (img.mask t)
      let d2 := if bam_counter > sectors then
        [ValDiag.counterExceedsSectors t bam_counter sectors] else []
      let d3 := if count ≠ bam_counter then
        [ValDiag.counterMismatch t bam_counter count] else []
      let rest := cbmimage_bam_check_consistency_go img (t + 1) fuel
      (rest.fst, d1 ++ d2 ++ d3 ++ rest.snd)

/-- `cbmimage_bam_check_consistency`: the result status together with the
diagnostics printed during the scan. -/
def cbmimage_bam_check_consistency (img : BamImage) : Int × List ValDiag :=
  cbmimage_bam_check_consistency_go img 1 img.maxtrack

/-- `cbmimage_i_bam_check_really_unused` from `bam.c`: a block is in its
factory-empty state when all bytes are 0, or when bytes 1..255 are all 1. -/
def cbmimage_i_bam_check_really_unused (img : GenImage) (lba : Nat) : Bool :=
  if img.data lba 2 = 1 then
    (List.range' 1 (img.bytes_in_block - 1)).all (fun i => decide (img.data lba i = 1))
  else if img.data lba 2 = 0 then
    (List.range img.bytes_in_block).all (fun i => decide (img.data lba i = 0))
  else
    false

/-- The image state on which `cbmimage_i_bam_check_equality` runs at the end
of `cbmimage_validate`: the geometry and block bytes, the gathered BAM
bitmaps, and the FAT reconstructed by the preceding validation steps. -/
structure VImage where
  gen : GenImage
  bamPresent : Bool
  mask : Nat → Nat → Nat
  fat : cbmimage_fat

/-- `cbmimage_bam_get` from `bam.c`: -1 when the BAM cannot be gathered,
`BAM_USED` when the block's bit is 0, otherwise `BAM_FREE`, upgraded to
`BAM_REALLY_FREE` when the block is in its factory-empty state. -/
def cbmimage_bam_get (v : VImage) (block : cbmimage_blockaddress) : Int :=
  if v.bamPresent = false then
    -1
  else
    let m := v.mask block.track
    let index := block.sector / 8
    let bitpos := block.sector % 8
    if (m index >>> bitpos) % 2 ≠ 0 then
      if cbmimage_i_bam_check_really_unused v.gen block.lba then
        BAM_REALLY_FREE
      else
        BAM_FREE
    else
      BAM_USED

/-- The body of the do-while loop of `cbmimage_i_bam_check_equality`: the
diagnostic (if any) for one block. -/
def cbmimage_i_bam_check_equality_body (v : VImage) (block : cbmimage_blockaddress) :
    List ValDiag :=
  let is_marked := cbmimage_fat_is_used v.fat block.lba
  let is_used : Bool := decide (cbmimage_bam_get v block = BAM_USED)
  if is_marked && !is_used then
    [ValDiag.blockUsedButBamFree block.lba]
  else if !is_marked && is_used then
    [ValDiag.blockFreeButBamUsed block.lba]
  else
    []

/-- The do-while loop of `cbmimage_i_bam_check_equality`, from block 1/0
through `cbmimage_blockaddress_advance`.  `fuel` bounds the iterations;
since each advance increments the LBA, `cbmimage_get_max_lba` iterations
always suffice. -/
def cbmimage_i_bam_check_equality_go (v : VImage) (block : cbmimage_blockaddress) :
    Nat → List ValDiag
  | 0 => cbmimage_i_bam_check_equality_body v block
  | fuel + 1 =>
    cbmimage_i_bam_check_equality_body v block ++
      (match cbmimage_blockaddress_advance v.gen block with
       | some b' => cbmimage_i_bam_check_equality_go v b' fuel
       | none => [])

/-- `cbmimage_i_bam_check_equality` from `validate.c`.  Its local `ret` is
initialized to 0 and *never assigned* anywhere in the function body: the
FAT/BAM divergences are only printed, so the returned status is the
constant 0. -/
def cbmimage_i_bam_check_equality (v : VImage) : Int × List ValDiag :=
  match cbmimage_blockaddress_init_from_ts_value v.gen 1 0 with
  | some b => (0, cbmimage_i_bam_check_equality_go v b (cbmimage_get_max_lba v.gen))
  | none => (0, [])

/- ## Theorems -/

/-- The LBA stored by the `CBMIMAGE_BLOCK_SET_FROM_LBA` macro is the LBA it
was given, whether or not the track/sector conversion succeeds. -/
lemma CBMIMAGE_BLOCK_SET_FROM_LBA_lba (img : GenImage) (l : Nat) :
    (CBMIMAGE_BLOCK_SET_FROM_LBA img l).lba = l := by
  unfold CBMIMAGE_BLOCK_SET_FROM_LBA
  cases h : cbmimage_i_generic_lba_to_blockaddress img l with
  | none => rfl
  | some p => cases p; rfl

/-- A generic image used as a concrete instance in several witnesses:
35 tracks of 21 sectors, all block bytes zero. -/
def imgG : GenImage := ⟨35, 21, 256, fun _ _ => 0⟩

/-- C10: `cbmimage_blockaddress_add` always returns 0, leaves the result
operand unchanged when the adder's LBA is 0, returns the adder when the
result operand's LBA is 0, and otherwise produces the block whose LBA is
`result.lba + adder.lba - 1` (within the `uint16_t` range). -/
theorem blockaddress_add_spec (img : GenImage) (r a : cbmimage_blockaddress) :
    (cbmimage_blockaddress_add img r a).fst = 0 ∧
    (a.lba = 0 → (cbmimage_blockaddress_add img r a).snd = r) ∧
    (a.lba ≠ 0 → r.lba = 0 → (cbmimage_blockaddress_add img r a).snd = a) ∧
    (a.lba ≠ 0 → r.lba ≠ 0 →
      ((cbmimage_blockaddress_add img r a).snd).lba = (r.lba + a.lba - 1) % 65536) ∧
    (a.lba ≠ 0 → r.lba ≠ 0 → r.lba + a.lba - 1 < 65536 →
      ((cbmimage_blockaddress_add img r a).snd).lba = r.lba + a.lba - 1) := by
  unfold cbmimage_blockaddress_add
  refine ⟨?_, ?_, ?_, ?_, ?_⟩
  · split_ifs <;> rfl
  · intro h; simp [h]
  · intro h1 h2; simp [h1, h2]
  · intro h1 h2
    simp only [if_neg h1, if_neg h2]
    rw [CBMIMAGE_BLOCK_SET_FROM_LBA_lba]
  · intro h1 h2 h3
    simp only [if_neg h1, if_neg h2]
    rw [CBMIMAGE_BLOCK_SET_FROM_LBA_lba]
    exact Nat.mod_eq_of_lt h3

/-- Witness for C10: the three cases of `cbmimage_blockaddress_add` at
concrete inputs. -/
theorem blockaddress_add_spec_witness :
    (cbmimage_blockaddress_add imgG ⟨1, 5, 6⟩ ⟨0, 0, 0⟩).snd = ⟨1, 5, 6⟩ ∧
    (cbmimage_blockaddress_add imgG ⟨0, 0, 0⟩ ⟨2, 0, 22⟩).snd = ⟨2, 0, 22⟩ ∧
    ((cbmimage_blockaddress_add imgG ⟨1, 5, 6⟩ ⟨2, 0, 22⟩).snd).lba = 6 + 22 - 1 :=
  ⟨(blockaddress_add_spec imgG ⟨1, 5, 6⟩ ⟨0, 0, 0⟩).2.1 rfl,
   (blockaddress_add_spec imgG ⟨0, 0, 0⟩ ⟨2, 0, 22⟩).2.2.1 (by decide) rfl,
   (blockaddress_add_spec imgG ⟨1, 5, 6⟩ ⟨2, 0, 22⟩).2.2.2.2 (by decide) (by decide) (by decide)⟩

/-- A FAT with a single entry set: block 3 links to LBA 5. -/
def fatC3 : cbmimage_fat := cbmimage_fat_set ⟨fun _ => 0⟩ 3 ⟨1, 1, 5⟩

/-- A FAT with block 3 set to the terminal sentinel (unused target). -/
def fatC3term : cbmimage_fat := cbmimage_fat_set ⟨fun _ => 0⟩ 3 cbmimage_block_unused

/-- C3: `cbmimage_fat_set` stores the target (or the 0xFFFF sentinel), but
`cbmimage_fat_get` discards it: the source assigns the *comparison result*
`target != UNUSED` to its `lba` variable and writes the converted block into
the local `block` instead of `target`, so it returns the unused address for
every used entry — not the stored target and not the terminal sentinel. -/
theorem fat_get_drops_stored_target :
    cbmimage_i_fat_get_target_lba fatC3 3 = 5 ∧
    cbmimage_fat_get fatC3 3 = cbmimage_block_unused ∧
    cbmimage_i_fat_get_target_lba fatC3term 3 = CBMIMAGE_FAT_LASTBLOCK ∧
    cbmimage_fat_get fatC3term 3 = cbmimage_block_unused ∧
    cbmimage_fat_get ⟨fun _ => 0⟩ 3 = cbmimage_block_unused := by
  refine ⟨by decide, by decide, by decide, by decide, by decide⟩

/-- C4: on a 35-track D64 image (`max_lba` = 683), the LBA-to-track/sector
conversion accepts `lba = 684` and yields track 35, sector 17 — one past the
last sector of track 35 (17 sectors, 0..16) — and accepts `lba = 0` as track
0, sector 0, because the final range check uses `>` instead of `>=`;
`lba = 683` and `lba = 685` behave as documented. -/
theorem d64_lba_to_blockaddress_accepts_out_of_range :
    d64_max_lba = 683 ∧
    cbmimage_i_d40_d64_d71_lba_to_blockaddress d64_image 684 = some (35, 17) ∧
    d64_image.sectors_in_track 35 = 17 ∧
    cbmimage_i_d40_d64_d71_lba_to_blockaddress d64_image 0 = some (0, 0) ∧
    cbmimage_i_d40_d64_d71_lba_to_blockaddress d64_image 683 = some (35, 16) ∧
    cbmimage_i_d40_d64_d71_lba_to_blockaddress d64_image 685 = none := by
  refine ⟨by decide, by decide, by decide, by decide, by decide, by decide⟩

/-- An image whose block 1 is a terminal block with link bytes (0, 0). -/
def imgT : GenImage := ⟨1, 3, 256, fun _ _ => 0⟩

/-- An image whose block 1 has the valid non-terminal link (1, 2). -/
def imgN : GenImage :=
  ⟨1, 3, 256, fun _ off => if off = 0 then 1 else if off = 1 then 2 else 0⟩

/-- C9: for a valid block whose link track is 0, `cbmimage_read_block` returns
the raw link-sector byte (0 for a (0,0) link), while the chain follower's
`cbmimage_blockaccessor_get_next_block` applies the `0 means 256` convention,
so the two read paths disagree exactly when the link sector is 0. -/
theorem read_block_terminator_raw_count (img : GenImage) (b : cbmimage_blockaddress)
    (h1 : 0 < b.lba) (h2 : b.lba ≤ cbmimage_get_max_lba img)
    (h0 : linkTrack img b.lba = 0) :
    cbmimage_read_block img b = (linkSector img b.lba : Int) ∧
    (cbmimage_blockaccessor_get_next_block img b.lba).fst =
      (if linkSector img b.lba = 0 then 256 else (linkSector img b.lba : Int)) ∧
    (linkSector img b.lba = 0 →
      cbmimage_read_block img b ≠ (cbmimage_blockaccessor_get_next_block img b.lba).fst) := by
  refine ⟨?_, ?_, ?_⟩
  · unfold cbmimage_read_block
    rw [if_pos ⟨h1, h2⟩, if_pos h0]
  · unfold cbmimage_blockaccessor_get_next_block
    simp [h0]
  · intro hs
    unfold cbmimage_read_block cbmimage_blockaccessor_get_next_block
    rw [if_pos ⟨h1, h2⟩, if_pos h0]
    simp [h0, hs]

/-- Witness for C9: on `imgT`, block 1 has link (0, 0); `cbmimage_read_block`
reports 0 valid bytes while the chain follower reports 256. -/
theorem read_block_terminator_raw_count_witness :
    cbmimage_read_block imgT ⟨1, 0, 1⟩ = 0 ∧
    (cbmimage_blockaccessor_get_next_block imgT 1).fst = 256 ∧
    cbmimage_read_block imgT ⟨1, 0, 1⟩ ≠ (cbmimage_blockaccessor_get_next_block imgT 1).fst :=
  ⟨(read_block_terminator_raw_count imgT ⟨1, 0, 1⟩ (by decide) (by decide) (by decide)).1,
   by
    have := (read_block_terminator_raw_count imgT ⟨1, 0, 1⟩ (by decide) (by decide) (by decide)).2.1
    simpa using this,
   (read_block_terminator_raw_count imgT ⟨1, 0, 1⟩ (by decide) (by decide) (by decide)).2.2
     (by decide)⟩

/-- C6: a block whose link-track byte is 0 terminates its chain: advancing
from it marks the chain done, and the chain follower's result for it is the
link-sector byte (with 0 standing for 256); for a block with a valid
non-terminal link the result is 0. -/
theorem chain_terminator_and_successor_results (img : GenImage) (c : cbmimage_chain) :
    (linkTrack img c.current = 0 →
      cbmimage_chain_last_result img c =
        (if linkSector img c.current = 0 then 256 else (linkSector img c.current : Int)) ∧
      (cbmimage_chain_advance img c).fst.is_done = true) ∧
    (0 < linkTrack img c.current →
      linkTrack img c.current ≤ img.maxtracks →
      linkSector img c.current < cbmimage_get_sectors_in_track img (linkTrack img c.current) →
      cbmimage_chain_last_result img c = 0) := by
  constructor
  · intro h0
    have hfst : (cbmimage_blockaccessor_get_next_block img c.current).fst =
        (if linkSector img c.current = 0 then 256 else (linkSector img c.current : Int)) := by
      unfold cbmimage_blockaccessor_get_next_block
      simp [h0]
    refine ⟨hfst, ?_⟩
    have hne : (cbmimage_blockaccessor_get_next_block img c.current).fst ≠ 0 := by
      rw [hfst]
      split_ifs with hs
      · decide
      · exact_mod_cast hs
    unfold cbmimage_chain_advance
    simp only [if_neg hne]
  · intro ht0 htm hs
    have hts : cbmimage_blockaddress_ts_exists img (linkTrack img c.current)
        (linkSector img c.current) = true := by
      unfold cbmimage_blockaddress_ts_exists cbmimage_get_sectors_in_track
      unfold cbmimage_get_sectors_in_track at hs
      simp [ht0, htm, hs]
    have h0 : linkTrack img c.current ≠ 0 := Nat.pos_iff_ne_zero.mp ht0
    simp [cbmimage_chain_last_result, cbmimage_blockaccessor_get_next_block,
      cbmimage_blockaddress_init_from_ts_value, cbmimage_i_generic_ts_to_blockaddress,
      h0, htm, hs, hts]

/-- Witness for C6: on `imgT` the start block has link (0, 0) and the chain
result is 256 with the chain done after one advance; on `imgN` the start
block links to 1/2 and the chain result is 0. -/
theorem chain_terminator_and_successor_results_witness :
    (cbmimage_chain_last_result imgT ⟨1, ∅, false, false⟩ = 256 ∧
      (cbmimage_chain_advance imgT ⟨1, ∅, false, false⟩).fst.is_done = true) ∧
    cbmimage_chain_last_result imgN ⟨1, ∅, false, false⟩ = 0 :=
  ⟨by
    have := (chain_terminator_and_successor_results imgT ⟨1, ∅, false, false⟩).1 (by decide)
    simpa using this,
   (chain_terminator_and_successor_results imgN ⟨1, ∅, false, false⟩).2
     (by decide) (by decide) (by decide)⟩

/-- The generic uniform T/S-to-LBA conversion followed by the LBA-to-T/S
conversion recovers the original pair on every existing block. -/
lemma generic_ts_lba_roundtrip (img : GenImage) (t s : Nat)
    (h : cbmimage_blockaddress_ts_exists img t s = true) :
    (cbmimage_i_generic_ts_to_blockaddress img t s).bind
      (fun l => cbmimage_i_generic_lba_to_blockaddress img l) = some (t, s) := by
  have h' := h
  unfold cbmimage_blockaddress_ts_exists cbmimage_get_sectors_in_track at h'
  simp only [Bool.and_eq_true, decide_eq_true_eq] at h'
  obtain ⟨⟨⟨ht0, htm⟩, hsm⟩, -⟩ := h'
  have hms : 0 < img.maxsectors := lt_of_le_of_lt (Nat.zero_le s) hsm
  unfold cbmimage_i_generic_ts_to_blockaddress
  rw [if_pos h]
  show cbmimage_i_generic_lba_to_blockaddress img ((t - 1) * img.maxsectors + s + 1) = some (t, s)
  have hkey : ((t - 1) * img.maxsectors + s) / img.maxsectors = t - 1 := by
    rw [Nat.add_comm ((t - 1) * img.maxsectors) s,
      Nat.mul_comm (t - 1) img.maxsectors, Nat.add_mul_div_left s (t - 1) hms,
      Nat.div_eq_of_lt hsm, Nat.zero_add]
  have ht1 : t - 1 + 1 = t := by omega
  have hsec : (t - 1) * img.maxsectors + s - (t - 1) * img.maxsectors = s := by
    rw [Nat.add_comm, Nat.add_sub_cancel]
  unfold cbmimage_i_generic_lba_to_blockaddress
  rw [if_neg (by omega : ¬ (t - 1) * img.maxsectors + s + 1 = 0)]
  simp only [Nat.add_sub_cancel, hkey, ht1, hsec]
  rw [if_neg]
  omega

/-- `track_lba_start` of the successor track adds the track's sector count. -/
lemma track_lba_start_succ (s : D64Settings) (t : Nat) (ht : 1 ≤ t) :
    track_lba_start s (t + 1) = track_lba_start s t + s.sectors_in_track t := by
  cases t with
  | zero => omega
  | succ n => rfl

/-- `track_lba_start` is monotone on tracks ≥ 1. -/
lemma track_lba_start_mono (s : D64Settings) {a b : Nat} (ha : 1 ≤ a) (hab : a ≤ b) :
    track_lba_start s a ≤ track_lba_start s b := by
  induction b with
  | zero => omega
  | succ n ih =>
    by_cases h : a ≤ n
    · have hn : 1 ≤ n := le_trans ha h
      have := ih h
      rw [track_lba_start_succ s n hn]
      omega
    · have : a = n + 1 := by omega
      subst this
      exact le_refl _

/-- The scan loop runs to the end when every inspected start value is ≤ lba. -/
lemma d64_scan_go_all_le (s : D64Settings) (lba : Nat) :
    ∀ (fuel t0 : Nat), (∀ u, t0 ≤ u → u < t0 + fuel → track_lba_start s u ≤ lba) →
      d64_scan_go s lba t0 fuel = t0 + fuel := by
  intro fuel
  induction fuel with
  | zero => intro t0 _; rfl
  | succ n ih =>
    intro t0 h
    unfold d64_scan_go
    rw [if_neg (Nat.not_lt.mpr (h t0 le_rfl (by omega)))]
    rw [ih (t0 + 1) (fun u hu1 hu2 => h u (by omega) (by omega))]
    omega

/-- The scan loop breaks at the first track whose start value exceeds lba. -/
lemma d64_scan_go_break (s : D64Settings) (lba : Nat) :
    ∀ (fuel t0 j : Nat), t0 ≤ j → j < t0 + fuel → lba < track_lba_start s j →
      (∀ u, t0 ≤ u → u < j → track_lba_start s u ≤ lba) →
      d64_scan_go s lba t0 fuel = j := by
  intro fuel
  induction fuel with
  | zero => intro t0 j h1 h2 _ _; omega
  | succ n ih =>
    intro t0 j h1 h2 h3 h4
    by_cases he : t0 = j
    · subst he
      unfold d64_scan_go
      rw [if_pos h3]
    · have ht : t0 < j := lt_of_le_of_ne h1 he
      unfold d64_scan_go
      rw [if_neg (Nat.not_lt.mpr (h4 t0 le_rfl ht))]
      exact ih (t0 + 1) j (by omega) (by omega) h3 (fun u hu1 hu2 => h4 u (by omega) hu2)

/-- The D40/D64/D71 T/S-to-LBA conversion followed by the start-table
LBA-to-T/S scan recovers the original pair on every existing block. -/
lemma d64_ts_lba_roundtrip (d : D64Settings) (t s : Nat)
    (h1 : 1 ≤ t) (h2 : t ≤ d.maxtracks) (h3 : s < d.sectors_in_track t) :
    (cbmimage_i_d40_d64_d71_ts_to_blockaddress d t s).bind
      (fun l => cbmimage_i_d40_d64_d71_lba_to_blockaddress d l) = some (t, s) := by
  unfold cbmimage_i_d40_d64_d71_ts_to_blockaddress
  rw [if_neg (by omega : ¬ (t = 0 ∨ t > d.maxtracks))]
  show cbmimage_i_d40_d64_d71_lba_to_blockaddress d (track_lba_start d t + s) = some (t, s)
  have hall : ∀ u, 1 ≤ u → u ≤ t → track_lba_start d u ≤ track_lba_start d t + s :=
    fun u hu1 hu2 => le_trans (track_lba_start_mono d hu1 hu2) (Nat.le_add_right _ _)
  have hscan : d64_scan_go d (track_lba_start d t + s) 1 d.maxtracks = t + 1 := by
    by_cases hcase : t = d.maxtracks
    · subst hcase
      rw [d64_scan_go_all_le d _ d.maxtracks 1
        (fun u hu1 hu2 => hall u hu1 (by omega))]
      omega
    · exact d64_scan_go_break d _ d.maxtracks 1 (t + 1) (by omega) (by omega)
        (by rw [track_lba_start_succ d t h1]; omega)
        (fun u hu1 hu2 => hall u hu1 (by omega))
  have hsec : track_lba_start d t + s - track_lba_start d t = s := by
    rw [Nat.add_comm, Nat.add_sub_cancel]
  unfold cbmimage_i_d40_d64_d71_lba_to_blockaddress
  simp only [hscan, Nat.add_sub_cancel, hsec]
  rw [if_neg (by omega : ¬ s > d.sectors_in_track t)]

/-- C7: converting an existing track/sector pair to its LBA and that LBA
back to a track/sector pair is the identity, both for the generic uniform
conversion and for the per-track start-table conversion of the
D40/D64/D71 family. -/
theorem ts_lba_roundtrip :
    (∀ (img : GenImage) (t s : Nat), cbmimage_blockaddress_ts_exists img t s = true →
      (cbmimage_i_generic_ts_to_blockaddress img t s).bind
        (fun l => cbmimage_i_generic_lba_to_blockaddress img l) = some (t, s)) ∧
    (∀ (d : D64Settings) (t s : Nat), 1 ≤ t → t ≤ d.maxtracks → s < d.sectors_in_track t →
      (cbmimage_i_d40_d64_d71_ts_to_blockaddress d t s).bind
        (fun l => cbmimage_i_d40_d64_d71_lba_to_blockaddress d l) = some (t, s)) :=
  ⟨generic_ts_lba_roundtrip, d64_ts_lba_roundtrip⟩

/-- Witness for C7: the round trip at track 3, sector 4 of a uniform image
and at track 18, sector 5 of a 35-track D64. -/
theorem ts_lba_roundtrip_witness :
    (cbmimage_i_generic_ts_to_blockaddress imgG 3 4).bind
      (fun l => cbmimage_i_generic_lba_to_blockaddress imgG l) = some (3, 4) ∧
    (cbmimage_i_d40_d64_d71_ts_to_blockaddress d64_image 18 5).bind
      (fun l => cbmimage_i_d40_d64_d71_lba_to_blockaddress d64_image l) = some (18, 5) :=
  ⟨ts_lba_roundtrip.1 imgG 3 4 (by decide),
   ts_lba_roundtrip.2 d64_image 18 5 (by decide) (by decide) (by decide)⟩

/-- The track loop of `cbmimage_bam_check_consistency` propagates only the
result of the recursive call, which bottoms out at 0: no violation found in
a track body ever reaches the returned status. -/
lemma check_consistency_go_fst (img : BamImage) (h : img.bamPresent = true) :
    ∀ (fuel t : Nat), (cbmimage_bam_check_consistency_go img t fuel).fst = 0 := by
  intro fuel
  induction fuel with
  | zero => intro t; rfl
  | succ n ih =>
    intro t
    simp only [cbmimage_bam_check_consistency_go, h]
    simp only [Bool.true_eq_false, if_false]
    exact ih (t + 1)

/-- C2: whenever the BAM selectors are present (`bam_count != 0`),
`cbmimage_bam_check_consistency` returns 0 — for *every* image, including
images whose BAM violates the sector-range, popcount or counter-bound
checks: the violations are only printed, never folded into the return
value. -/
theorem bam_check_consistency_always_zero (img : BamImage)
    (h : img.bamPresent = true) :
    (cbmimage_bam_check_consistency img).fst = 0 :=
  check_consistency_go_fst img h img.maxtrack 1

/-- A one-track BAM image whose bitmap claims 24 free sectors (including
bits for the non-existing sectors 21..23) while the counter byte says 5. -/
def bamW : BamImage :=
  ⟨1, fun _ => 21, true, fun _ i => if i < 3 then 0xFF else 0, fun _ => 5⟩

/-- Witness for C2: on `bamW` the consistency check emits diagnostics (the
bitmap has bits beyond the track's sector count and the counter mismatches
the popcount) yet still returns 0. -/
theorem bam_check_consistency_always_zero_witness :
    bamW.bamPresent = true ∧
    (cbmimage_bam_check_consistency bamW).fst = 0 ∧
    (cbmimage_bam_check_consistency bamW).snd ≠ [] :=
  ⟨rfl, bam_check_consistency_always_zero bamW rfl, by decide⟩

/-- The image state at the end of a `cbmimage_validate` run on a tiny
uniform image: every BAM bit says "used" (mask bytes 0) while the
reconstructed FAT marks nothing — a FAT/BAM divergence on every block. -/
def vimgC1 : VImage :=
  ⟨⟨1, 2, 256, fun _ _ => 0⟩, true, fun _ _ => 0, ⟨fun _ => 0⟩⟩

/-- C1: `cbmimage_i_bam_check_equality` — the final FAT-vs-BAM comparison of
`cbmimage_validate`, whose result is OR-ed into the validator's return
value — returns 0 for every image, because its local `ret` is never
assigned; on `vimgC1` it emits divergence diagnostics and still contributes
0, so `cbmimage_validate` reports success despite detected anomalies. -/
theorem bam_check_equality_returns_zero_despite_divergence :
    (∀ v : VImage, (cbmimage_i_bam_check_equality v).fst = 0) ∧
    (cbmimage_i_bam_check_equality vimgC1).snd ≠ [] := by
  constructor
  · intro v
    unfold cbmimage_i_bam_check_equality
    cases h : cbmimage_blockaddress_init_from_ts_value v.gen 1 0 with
    | none => rfl
    | some b => rfl
  · decide

/-- A one-track, three-sector image whose block 1 is a terminal block with
link bytes (0, 10): a one-block file with 9 payload bytes. -/
def img5 : GenImage :=
  ⟨1, 3, 256, fun lba off => if lba = 1 ∧ off = 1 then 10 else 0⟩

/-- C5: reading a one-block file with a buffer larger than the file: the
first call returns the 9 payload bytes and consumes the chain (the chain is
done — end of file); the *second* call returns -1, although the claim (and
the function's own documentation) require 0 at end-of-file. -/
theorem file_read_next_block_minus_one_at_eof :
    ((cbmimage_file_read_next_block img5 (cbmimage_file_open_by_dir_entry img5 1) 254).map
      (fun p => p.2.chain.is_done)) = some true ∧
    (cbmimage_file_read_next_block img5 (cbmimage_file_open_by_dir_entry img5 1) 254).bind
      (fun p => (cbmimage_file_read_next_block img5 p.2 254).map (fun q => (p.1, q.1))) =
      some (9, -1) := by
  constructor
  · decide
  · decide

/-- When `cbmimage_blockaccessor_get_next_block` reports a successor
(result 0), the successor's address is delivered and its LBA lies within
the image. -/
lemma get_next_block_fst_zero (img : GenImage) (cur : Nat)
    (h : (cbmimage_blockaccessor_get_next_block img cur).fst = 0) :
    ∃ b : cbmimage_blockaddress,
      (cbmimage_blockaccessor_get_next_block img cur).snd = some b ∧
      1 ≤ b.lba ∧ b.lba ≤ cbmimage_get_max_lba img := by
  by_cases h0 : linkTrack img cur = 0
  · exfalso
    unfold cbmimage_blockaccessor_get_next_block at h
    rw [if_pos h0] at h
    by_cases hs : linkSector img cur = 0
    · rw [if_pos hs] at h
      exact absurd h (by decide)
    · rw [if_neg hs] at h
      simp only at h
      exact hs (by exact_mod_cast h)
  · by_cases h1 : linkTrack img cur ≤ img.maxtracks
    · by_cases h2 : linkSector img cur < cbmimage_get_sectors_in_track img (linkTrack img cur)
      · have hts : cbmimage_blockaddress_ts_exists img (linkTrack img cur)
            (linkSector img cur) = true := by
          unfold cbmimage_blockaddress_ts_exists
          unfold cbmimage_get_sectors_in_track at h2 ⊢
          simp [Nat.pos_of_ne_zero h0, h1, h2]
        have hinit : cbmimage_blockaddress_init_from_ts_value img (linkTrack img cur)
            (linkSector img cur) =
            some ⟨linkTrack img cur, linkSector img cur,
              (linkTrack img cur - 1) * img.maxsectors + linkSector img cur + 1⟩ := by
          unfold cbmimage_blockaddress_init_from_ts_value cbmimage_i_generic_ts_to_blockaddress
          rw [if_pos hts]
        refine ⟨⟨linkTrack img cur, linkSector img cur,
          (linkTrack img cur - 1) * img.maxsectors + linkSector img cur + 1⟩, ?_, ?_, ?_⟩
        · unfold cbmimage_blockaccessor_get_next_block
          rw [if_neg h0, if_pos h1, if_pos h2, hinit]
        · exact Nat.succ_le_succ (Nat.zero_le _)
        · show (linkTrack img cur - 1) * img.maxsectors + linkSector img cur + 1 ≤
            cbmimage_get_max_lba img
          unfold cbmimage_get_sectors_in_track at h2
          have hstep : (linkTrack img cur - 1) * img.maxsectors + linkSector img cur + 1 ≤
              linkTrack img cur * img.maxsectors := by
            have ht1 : linkTrack img cur - 1 + 1 = linkTrack img cur := by
              omega
            calc (linkTrack img cur - 1) * img.maxsectors + linkSector img cur + 1
                ≤ (linkTrack img cur - 1) * img.maxsectors + img.maxsectors := by omega
              _ = (linkTrack img cur - 1 + 1) * img.maxsectors := by rw [Nat.succ_mul]
              _ = linkTrack img cur * img.maxsectors := by rw [ht1]
          exact le_trans hstep (Nat.mul_le_mul_right _ h1)
      · exfalso
        unfold cbmimage_blockaccessor_get_next_block at h
        rw [if_neg h0, if_pos h1, if_neg h2] at h
        exact absurd h (by decide)
    · exfalso
      unfold cbmimage_blockaccessor_get_next_block at h
      rw [if_neg h0, if_neg h1] at h
      exact absurd h (by decide)

/-- `cbmimage_i_chain_readblock` never clears the `is_done` flag. -/
lemma chain_readblock_is_done_mono (img : GenImage) (c : cbmimage_chain) (b : Nat)
    (h : c.is_done = true) :
    ((cbmimage_i_chain_readblock img c b).fst).is_done = true := by
  unfold cbmimage_i_chain_readblock
  split_ifs with h1
  · rfl
  · exact h

/-- `cbmimage_chain_advance` never clears the `is_done` flag. -/
lemma chain_advance_is_done_mono (img : GenImage) (c : cbmimage_chain)
    (h : c.is_done = true) :
    ((cbmimage_chain_advance img c).fst).is_done = true := by
  unfold cbmimage_chain_advance
  split_ifs with h1
  · exact chain_readblock_is_done_mono img c _ h
  · rfl

/-- A `cbmimage_chain_advance` call that leaves the chain not-done must have
marked a previously unmarked in-range LBA in the loop detector. -/
lemma chain_advance_not_done (img : GenImage) (c : cbmimage_chain)
    (h : ((cbmimage_chain_advance img c).fst).is_done = false) :
    ∃ b : Nat, 1 ≤ b ∧ b ≤ cbmimage_get_max_lba img ∧ b ∉ c.marked ∧
      ((cbmimage_chain_advance img c).fst).marked = insert b c.marked := by
  by_cases h1 : (cbmimage_blockaccessor_get_next_block img c.current).fst = 0
  · obtain ⟨bb, hsnd, hb1, hb2⟩ := get_next_block_fst_zero img c.current h1
    unfold cbmimage_chain_advance at h ⊢
    rw [if_pos h1] at h ⊢
    simp only [hsnd] at h ⊢
    have hm1 : ¬ (bb.lba = 0 ∨ bb.lba > cbmimage_get_max_lba img) := by omega
    by_cases hm2 : bb.lba ∈ c.marked
    · exfalso
      have hfst : (cbmimage_loop_mark img c.marked bb.lba).fst = 1 := by
        unfold cbmimage_loop_mark
        rw [if_neg hm1, if_pos hm2]
      unfold cbmimage_i_chain_readblock at h
      rw [if_pos (by rw [hfst]; decide)] at h
      simp at h
    · have hfst : (cbmimage_loop_mark img c.marked bb.lba).fst = 0 := by
        unfold cbmimage_loop_mark
        rw [if_neg hm1, if_neg hm2]
      have hmk : (cbmimage_loop_mark img c.marked bb.lba).snd = insert bb.lba c.marked := by
        unfold cbmimage_loop_mark
        rw [if_neg hm1, if_neg hm2]
      refine ⟨bb.lba, hb1, hb2, hm2, ?_⟩
      unfold cbmimage_i_chain_readblock
      rw [if_neg (by rw [hfst]; decide)]
      exact hmk
  · exfalso
    unfold cbmimage_chain_advance at h
    rw [if_neg h1] at h
    simp at h

/-- The invariant of the termination argument: after `n` advances the chain
is either done or has marked at least `n + 1` distinct LBAs, all within the
image's LBA range. -/
lemma chain_run_invariant (img : GenImage) (start : Nat) (n : Nat) :
    (cbmimage_chain_run img start n).is_done = true ∨
      (n + 1 ≤ (cbmimage_chain_run img start n).marked.card ∧
        (cbmimage_chain_run img start n).marked ⊆
          Finset.Icc 1 (cbmimage_get_max_lba img)) := by
  induction n with
  | zero =>
    unfold cbmimage_chain_run cbmimage_chain_start cbmimage_i_chain_readblock
      cbmimage_loop_mark
    by_cases hm1 : start = 0 ∨ start > cbmimage_get_max_lba img
    · left
      rw [if_pos hm1]
      simp
    · right
      rw [if_neg hm1, if_neg (by simp : ¬ start ∈ (∅ : Finset Nat))]
      simp only [if_neg (by decide : ¬ (0 : Int) ≠ 0)]
      constructor
      · simp
      · intro x hx
        simp only [Finset.mem_insert, Finset.not_mem_empty, or_false] at hx
        subst hx
        simp only [Finset.mem_Icc]
        omega
  | succ n ih =>
    rcases ih with hd | ⟨hc, hs⟩
    · left
      exact chain_advance_is_done_mono img _ hd
    · by_cases hd2 : (cbmimage_chain_run img start (n + 1)).is_done = true
      · left
        exact hd2
      · right
        have hd3 : ((cbmimage_chain_advance img (cbmimage_chain_run img start n)).fst).is_done
            = false := by
          have : (cbmimage_chain_run img start (n + 1)).is_done = false :=
            Bool.eq_false_iff.mpr hd2
          exact this
        obtain ⟨b, hb1, hb2, hb3, hb4⟩ :=
          chain_advance_not_done img (cbmimage_chain_run img start n) hd3
        have hrun : (cbmimage_chain_run img start (n + 1)).marked =
            insert b (cbmimage_chain_run img start n).marked := hb4
        constructor
        · rw [hrun, Finset.card_insert_of_not_mem hb3]
          omega
        · rw [hrun]
          intro x hx
          rcases Finset.mem_insert.mp hx with hx | hx
          · subst hx
            simp only [Finset.mem_Icc]
            omega
          · exact hs hx

/-- C8: chain traversal terminates: for every image and every start block —
whatever the link bytes stored in the image — the chain is in the done
state after at most `max_lba + 1` calls to `cbmimage_chain_advance`,
because every visited block is marked in the loop detector and a re-mark,
an out-of-range mark, or a terminal link ends the chain. -/
theorem chain_advance_reaches_done_within_max_lba_steps (img : GenImage) (start : Nat) :
    (cbmimage_chain_run img start (cbmimage_get_max_lba img + 1)).is_done = true := by
  rcases chain_run_invariant img start (cbmimage_get_max_lba img + 1) with h | ⟨hc, hs⟩
  · exact h
  · exfalso
    have hcard := Finset.card_le_card hs
    rw [Nat.card_Icc] at hcard
    omega
